import Mathlib

/-!
Shallow embedding of the `tracker` habit-tracking app's data layer and
date-window logic, and verification of its specified properties.

Embedded source files:
* `src/store/dataStore.ts` — the `DataStore` class (local replica store with
  best-effort remote mirroring).  Stateful methods become pure functions from
  a `StoreState` to a result/`StoreState` pair.  The `uuidv4()` generator and
  the `new Date()` clock are modelled by explicit `freshId` / `now` arguments;
  each remote round-trip's outcome is modelled by an explicit `RemoteResult`
  argument (`error`, or `ok` carrying the server-assigned fields).
* `src/hooks/useTracker.ts` — the view-model hook: the pure date-window
  functions (`visibleDates`, `allDates`, `canGoBack`, `canGoForward`,
  `goBack`, `goForward`), the derived predicate `isLogged`, and the
  trim-and-delegate `saveNote` wrapper.

The store's `logged_date` values are `yyyy-MM-dd` strings compared only for
equality, and the window-navigation dates are `startOfDay` values stepped by
whole days, so those are modelled as integer day numbers (`addDays`/`subDays`
become `+`/`-`; `format`'s injectivity on days makes string equality equal day
equality).  The full-history sequence is the exception: its `startDate` input
need not fall on a midnight (the constructor keeps the time of day; the remote
path mixes a UTC midnight with a local one), so `allDates` and date-fns
`differenceInDays` (full day periods, fractional days truncated) are modelled
at timestamp granularity, with `dayOf` giving a timestamp's calendar day.
-/

/-- A timestamp (value of `new Date()` / a `created_at` column). -/
abbrev Timestamp := Nat

/-- `interface Activity` from `src/types/index.ts`. -/
structure Activity where
  id : String
  name : String
  created_at : Timestamp
  order_index : Int
deriving Repr, DecidableEq

/-- `interface Log` from `src/types/index.ts`. -/
structure Log where
  id : String
  activity_id : String
  logged_date : Int
  created_at : Timestamp
deriving Repr, DecidableEq

/-- `interface Note` from `src/types/index.ts`. -/
structure Note where
  id : String
  logged_date : Int
  text : String
  created_at : Timestamp
  updated_at : Timestamp
deriving Repr, DecidableEq

/-- Outcome of one remote (Supabase) round-trip: the client returns
`{ data, error }` without throwing, so a call either errors or returns the
server-assigned data `α`. -/
inductive RemoteResult (α : Type) where
  | error : RemoteResult α
  | ok (data : α) : RemoteResult α
deriving Repr, DecidableEq

/-- The private fields of the `DataStore` class (`src/store/dataStore.ts`):
the three entity collections, the history start date, the `initialized`
flag and the `useSupabase` flag. -/
structure StoreState where
  activities : List Activity
  logs : List Log
  notes : List Note
  startDate : Int
  initialized : Bool
  useSupabase : Bool
deriving Repr, DecidableEq

namespace DataStore

/-- `getLogForActivityAndDate(activityId, date)`: first log matching the
(activity, date) pair, via `Array.prototype.find`. -/
def getLogForActivityAndDate (s : StoreState) (activityId : String)
    (date : Int) : Option Log :=
  s.logs.find? (fun log => log.activity_id == activityId && log.logged_date == date)

/-- `getNoteForDate(date)`: first note with the given date. -/
def getNoteForDate (s : StoreState) (date : Int) : Option Note :=
  s.notes.find? (fun note => note.logged_date == date)

/-- `getActivities()`: copy of the activities sorted ascending by
`order_index` (stable `Array.prototype.sort` with comparator
`a.order_index - b.order_index`). -/
def getActivities (s : StoreState) : List Activity :=
  s.activities.mergeSort (fun a b => a.order_index ≤ b.order_index)

/-- `addActivity(name)`: computes `maxOrder = Math.max(...order_indices, -1)`,
builds a provisional activity from the local uuid and clock, on a successful
remote insert adopts the server id and timestamp (on failure keeps the
provisional values), then appends locally.  Returns the new activity and the
new store state. -/
def addActivity (s : StoreState) (name : String) (freshId : String)
    (now : Timestamp) (remote : RemoteResult (String × Timestamp)) :
    Activity × StoreState :=
  let maxOrder : Int := s.activities.foldr (fun a m => max a.order_index m) (-1)
  let provisional : Activity :=
    { id := freshId, name := name, created_at := now, order_index := maxOrder + 1 }
  let newActivity : Activity :=
    if s.useSupabase then
      match remote with
      | .error => provisional
      | .ok (rid, rts) => { provisional with id := rid, created_at := rts }
    else provisional
  (newActivity, { s with activities := s.activities ++ [newActivity] })

/-- `toggleLog(activityId, date)`: if a log exists for the pair, deletes it
locally (remote delete failure only logged) and returns `null`; otherwise
builds a provisional log, on a successful remote insert adopts the server id
and timestamp, appends locally, and returns the new log. -/
def toggleLog (s : StoreState) (activityId : String) (date : Int)
    (freshId : String) (now : Timestamp)
    (remote : RemoteResult (String × Timestamp)) : Option Log × StoreState :=
  match getLogForActivityAndDate s activityId date with
  | some existingLog =>
      (none, { s with logs := s.logs.filter (fun log => log.id != existingLog.id) })
  | none =>
      let provisional : Log :=
        { id := freshId, activity_id := activityId, logged_date := date,
          created_at := now }
      let newLog : Log :=
        if s.useSupabase then
          match remote with
          | .error => provisional
          | .ok (rid, rts) => { provisional with id := rid, created_at := rts }
        else provisional
      (some newLog, { s with logs := s.logs ++ [newLog] })

/-- Replace the first element satisfying `p` by its image under `f`:
the embedding of mutating, in place, the object found by
`Array.prototype.find`. -/
def updateFirst (p : α → Bool) (f : α → α) : List α → List α
  | [] => []
  | x :: xs => if p x then f x :: xs else x :: updateFirst p f xs

/-- `saveNote(date, text)` of the `DataStore` class: if a note exists for the
date, mutates its `text` and `updated_at` in place (remote update failure
only logged) and returns it; otherwise builds a provisional note, on a
successful remote insert adopts the server id and timestamps, appends
locally, and returns it. -/
def saveNote (s : StoreState) (date : Int) (text : String) (freshId : String)
    (now : Timestamp)
    (remote : RemoteResult (String × Timestamp × Timestamp)) :
    Note × StoreState :=
  match getNoteForDate s date with
  | some existingNote =>
      let updated : Note := { existingNote with text := text, updated_at := now }
      let newNotes := updateFirst (fun n => n.logged_date == date)
        (fun n => { n with text := text, updated_at := now }) s.notes
      (updated, { s with notes := newNotes })
  | none =>
      let provisional : Note :=
        { id := freshId, logged_date := date, text := text,
          created_at := now, updated_at := now }
      let newNote : Note :=
        if s.useSupabase then
          match remote with
          | .error => provisional
          | .ok (rid, rcts, ruts) =>
              { provisional with id := rid, created_at := rcts, updated_at := ruts }
        else provisional
      (newNote, { s with notes := s.notes ++ [newNote] })

/-- `deleteNote(date)`: remote delete failure only logged; locally keeps
every note whose `logged_date` differs from `date`. -/
def deleteNote (s : StoreState) (date : Int)
    (_remote : RemoteResult Unit) : StoreState :=
  { s with notes := s.notes.filter (fun note => note.logged_date != date) }

/-- `deleteActivity(activityId)`: remote delete failure only logged; locally
removes the activity and every log referencing it. -/
def deleteActivity (s : StoreState) (activityId : String)
    (_remote : RemoteResult Unit) : StoreState :=
  { s with
    activities := s.activities.filter (fun a => a.id != activityId),
    logs := s.logs.filter (fun l => l.activity_id != activityId) }

/-- `editActivity(activityId, newName)`: no-op when the id is unknown;
otherwise mutates the found activity's `name` in place (remote update
failure only logged). -/
def editActivity (s : StoreState) (activityId : String) (newName : String)
    (_remote : RemoteResult Unit) : StoreState :=
  match s.activities.find? (fun a => a.id == activityId) with
  | none => s
  | some _ =>
      let newActivities := updateFirst (fun a => a.id == activityId)
        (fun a => { a with name := newName }) s.activities
      { s with activities := newActivities }

/-- Earliest `logged_date` among the loaded logs (the `Math.min` over their
dates in `loadFromSupabase`), or `dflt` when there are none. -/
def earliestLogDate (logs : List Log) (dflt : Int) : Int :=
  match logs.map (fun l => l.logged_date) with
  | [] => dflt
  | d :: ds => ds.foldl min d

/-- `loadFromSupabase()`: replaces the three collections with the loaded
rows and, when any logs were loaded, sets `startDate` to the earliest
logged date. -/
def loadFromSupabase (s : StoreState)
    (rows : List Activity × List Log × List Note) : StoreState :=
  let s1 := { s with activities := rows.1, logs := rows.2.1, notes := rows.2.2 }
  if rows.2.1.isEmpty then s1 else { s1 with startDate := earliestLogDate rows.2.1 s1.startDate }

/-- `initializeSampleData()`: pushes the generated sample activities, logs
and notes onto the existing collections.  The generator is randomized
(`Math.random`, `uuidv4`), so its output is an explicit argument. -/
def addSampleData (s : StoreState)
    (sample : List Activity × List Log × List Note) : StoreState :=
  { s with
    activities := s.activities ++ sample.1,
    logs := s.logs ++ sample.2.1,
    notes := s.notes ++ sample.2.2 }

/-- `initialize()` of the `DataStore` class (named `initStore` here): returns
immediately when already initialized; otherwise, with a remote adapter,
attempts the full load — on failure abandons the remote path
(`useSupabase := false`) and falls back to sample data; without a remote
adapter goes straight to sample data.  Every completing path sets
`initialized`. -/
def initStore (s : StoreState)
    (load : RemoteResult (List Activity × List Log × List Note))
    (sample : List Activity × List Log × List Note) : StoreState :=
  if s.initialized then s
  else if s.useSupabase then
    match load with
    | .ok rows => { loadFromSupabase s rows with initialized := true }
    | .error =>
        { addSampleData { s with useSupabase := false } sample with initialized := true }
  else
    { addSampleData s sample with initialized := true }

end DataStore

/-- Number of visible columns on desktop (`VISIBLE_DAYS` in
`useTracker.ts`). -/
def VISIBLE_DAYS : Nat := 7

namespace Tracker

/-- `canGoBack`: `viewStartDate > startDate`. -/
def canGoBack (startDate viewStartDate : Int) : Bool :=
  decide (viewStartDate > startDate)

/-- `canGoForward`: the last visible date `viewStartDate + (VISIBLE_DAYS - 1)`
is before today. -/
def canGoForward (today viewStartDate : Int) : Bool :=
  decide (viewStartDate + ((VISIBLE_DAYS : Int) - 1) < today)

/-- `goBack()`: when navigation back is possible, steps the window start
back by `VISIBLE_DAYS`, clamped at `startDate`; otherwise leaves it. -/
def goBack (startDate viewStartDate : Int) : Int :=
  if canGoBack startDate viewStartDate then
    let newDate := viewStartDate - (VISIBLE_DAYS : Int)
    if newDate < startDate then startDate else newDate
  else viewStartDate

/-- `goForward()`: when navigation forward is possible, steps the window
start forward by `VISIBLE_DAYS`, clamped at `today - (VISIBLE_DAYS - 1)`;
otherwise leaves it. -/
def goForward (today viewStartDate : Int) : Int :=
  if canGoForward today viewStartDate then
    let newDate := viewStartDate + (VISIBLE_DAYS : Int)
    let maxStartDate := today - ((VISIBLE_DAYS : Int) - 1)
    if newDate > maxStartDate then maxStartDate else newDate
  else viewStartDate

/-- `visibleDates`: the `VISIBLE_DAYS` consecutive days starting at
`viewStartDate`. -/
def visibleDates (viewStartDate : Int) : List Int :=
  (List.range VISIBLE_DAYS).map (fun (i : Nat) => viewStartDate + (i : Int))

/-- Milliseconds per calendar day.  The history sequence is modelled at
timestamp (millisecond) granularity because the store's `startDate` need
not fall on a midnight: the constructor's `subDays(new Date(), 30)` keeps
the wall-clock time of day, and the remote path's `new Date(logged_date)`
is a UTC midnight while the hook's `today` is a local midnight. -/
def MS_PER_DAY : Int := 86400000

/-- date-fns `differenceInDays(a, b)`: the number of full day periods
between the two timestamps, fractional days truncated toward zero. -/
def differenceInDays (a b : Int) : Int := (a - b).tdiv MS_PER_DAY

/-- The calendar day containing a timestamp: what
`format(date, "yyyy-MM-dd")` displays (the timezone offset is absorbed
into the epoch). -/
def dayOf (t : Int) : Int := t.fdiv MS_PER_DAY

/-- `allDates`: `differenceInDays(today, startDate) + 1` dates counted down
from `today` in whole-day steps, reverse chronological; the view formats
each entry to its calendar day (`dayOf`). -/
def allDates (today startDate : Int) : List Int :=
  (List.range ((differenceInDays today startDate).toNat + 1)).map
    (fun (i : Nat) => today - (i : Int) * MS_PER_DAY)

/-- `isLogged(activityId, date)`: whether some cached log matches the
pair. -/
def isLogged (s : StoreState) (activityId : String) (date : Int) : Bool :=
  s.logs.any (fun log => log.activity_id == activityId && log.logged_date == date)

/-- `String.prototype.trim()`: strip leading and trailing whitespace,
modelled over the string's character list. -/
def jsTrim (s : String) : String :=
  ⟨((s.data.dropWhile Char.isWhitespace).reverse.dropWhile
      Char.isWhitespace).reverse⟩

/-- `saveNote(date, text)` of the `useTracker` hook: saves the trimmed text
through the store when it is non-empty (JS truthiness of `text.trim()`),
otherwise delegates to `deleteNote(date)`. -/
def saveNote (s : StoreState) (date : Int) (text : String) (freshId : String)
    (now : Timestamp)
    (remote : RemoteResult (String × Timestamp × Timestamp)) : StoreState :=
  if jsTrim text ≠ "" then
    (DataStore.saveNote s date (jsTrim text) freshId now remote).2
  else
    DataStore.deleteNote s date .error

end Tracker

section Claims

open DataStore Tracker

/-- The projection of a `StoreState` visible to local reads: the three
collections, the history start date and the initialization flag (everything
except the remote-availability flag). -/
def localParts (s : StoreState) :
    List Activity × List Log × List Note × Int × Bool :=
  (s.activities, s.logs, s.notes, s.startDate, s.initialized)

/-- Every completing path of `initialize()` leaves the `initialized` flag
set. -/
theorem initStore_sets_initialized (s : StoreState)
    (load : RemoteResult (List Activity × List Log × List Note))
    (sample : List Activity × List Log × List Note) :
    (initStore s load sample).initialized = true := by
  unfold initStore
  by_cases hi : s.initialized = true
  · rw [if_pos hi]; exact hi
  · rw [if_neg hi]
    split
    · split <;> rfl
    · rfl

/-- `initialize()` on an already-initialized store returns it unchanged. -/
theorem initStore_noop_of_initialized (s : StoreState)
    (load : RemoteResult (List Activity × List Log × List Note))
    (sample : List Activity × List Log × List Note)
    (h : s.initialized = true) : initStore s load sample = s := by
  unfold initStore
  rw [if_pos h]

/-- C9: `initialize()` is idempotent: after one completed call the
`initialized` flag is set, and every later call returns the state unchanged
(no sample regeneration, no remote re-load), whatever the remote load
outcomes and sample datasets involved. -/
theorem initStore_idempotent (s : StoreState)
    (load1 load2 : RemoteResult (List Activity × List Log × List Note))
    (sample1 sample2 : List Activity × List Log × List Note) :
    (initStore s load1 sample1).initialized = true ∧
    initStore (initStore s load1 sample1) load2 sample2 =
      initStore s load1 sample1 :=
  ⟨initStore_sets_initialized s load1 sample1,
   initStore_noop_of_initialized _ load2 sample2
     (initStore_sets_initialized s load1 sample1)⟩

/-- C7: `deleteActivity(activityId)` cascades: afterwards no log references
the deleted activity, and the logs of every other activity are exactly what
they were before. -/
theorem deleteActivity_cascade (s : StoreState) (activityId : String)
    (remote : RemoteResult Unit) :
    (deleteActivity s activityId remote).logs.filter
        (fun l => l.activity_id == activityId) = [] ∧
    (∀ other : String, other ≠ activityId →
      (deleteActivity s activityId remote).logs.filter
          (fun l => l.activity_id == other) =
        s.logs.filter (fun l => l.activity_id == other)) := by
  constructor
  · show (s.logs.filter (fun l => l.activity_id != activityId)).filter
        (fun l => l.activity_id == activityId) = []
    rw [List.filter_eq_nil_iff]
    intro l hl
    have h2 := (List.mem_filter.mp hl).2
    simp only [bne_iff_ne, ne_eq] at h2
    simpa using h2
  · intro other hother
    show (s.logs.filter (fun l => l.activity_id != activityId)).filter
        (fun l => l.activity_id == other) = _
    rw [List.filter_filter]
    apply List.filter_congr
    intro l _
    by_cases h : l.activity_id = other
    · have hne : ¬ other = activityId := fun hh => hother hh
      simp [h, hne, bne]
    · simp [h]

/-- C7 witness: an activity with 5 logs plus a bystander log; after the
cascade delete, 0 logs remain for the deleted id and the other activity's
logs are untouched. -/
theorem deleteActivity_cascade_witness :
    (deleteActivity
        ⟨[⟨"a1", "Run", 0, 0⟩, ⟨"a2", "Read", 0, 1⟩],
         [⟨"l1", "a1", 1, 0⟩, ⟨"l2", "a1", 2, 0⟩, ⟨"l3", "a1", 3, 0⟩,
          ⟨"l4", "a1", 4, 0⟩, ⟨"l5", "a1", 5, 0⟩, ⟨"l6", "a2", 1, 0⟩],
         [], 0, true, false⟩ "a1" .error).logs.filter
        (fun l => l.activity_id == "a1") = [] ∧
    ("a2" : String) ≠ "a1" ∧
    (deleteActivity
        ⟨[⟨"a1", "Run", 0, 0⟩, ⟨"a2", "Read", 0, 1⟩],
         [⟨"l1", "a1", 1, 0⟩, ⟨"l2", "a1", 2, 0⟩, ⟨"l3", "a1", 3, 0⟩,
          ⟨"l4", "a1", 4, 0⟩, ⟨"l5", "a1", 5, 0⟩, ⟨"l6", "a2", 1, 0⟩],
         [], 0, true, false⟩ "a1" .error).logs.filter
        (fun l => l.activity_id == "a2") =
      List.filter (fun l => l.activity_id == "a2")
        [⟨"l1", "a1", 1, 0⟩, ⟨"l2", "a1", 2, 0⟩, ⟨"l3", "a1", 3, 0⟩,
         ⟨"l4", "a1", 4, 0⟩, ⟨"l5", "a1", 5, 0⟩, ⟨"l6", "a2", 1, 0⟩] :=
  ⟨(deleteActivity_cascade _ "a1" .error).1, by decide,
   (deleteActivity_cascade _ "a1" .error).2 "a2" (by decide)⟩

/-- C10: `toggleLog` performs no referential-integrity check: for any
`activityId` whatsoever (in particular one that matches no existing
activity) and a date with no log for the pair, it creates and returns a log
carrying that `activity_id`, appended to the local collection. -/
theorem toggleLog_no_ref_check (s : StoreState) (activityId : String)
    (date : Int) (freshId : String) (now : Timestamp)
    (remote : RemoteResult (String × Timestamp))
    (h : getLogForActivityAndDate s activityId date = none) :
    ∃ newLog : Log,
      (toggleLog s activityId date freshId now remote).1 = some newLog ∧
      newLog.activity_id = activityId ∧ newLog.logged_date = date ∧
      (toggleLog s activityId date freshId now remote).2.logs =
        s.logs ++ [newLog] := by
  unfold toggleLog
  rw [h]
  cases hs : s.useSupabase <;> cases remote <;>
    exact ⟨_, rfl, rfl, rfl, rfl⟩

/-- C10 witness: the store knows only activity `a1`, yet toggling the
unknown id `ghost` creates a log referencing it. -/
theorem toggleLog_no_ref_check_witness :
    getLogForActivityAndDate
        ⟨[⟨"a1", "Run", 0, 0⟩], [], [], 0, true, false⟩ "ghost" 3 = none ∧
    ∃ newLog : Log,
      (toggleLog ⟨[⟨"a1", "Run", 0, 0⟩], [], [], 0, true, false⟩
          "ghost" 3 "u1" 0 .error).1 = some newLog ∧
      newLog.activity_id = "ghost" ∧ newLog.logged_date = 3 ∧
      (toggleLog ⟨[⟨"a1", "Run", 0, 0⟩], [], [], 0, true, false⟩
          "ghost" 3 "u1" 0 .error).2.logs = [] ++ [newLog] :=
  ⟨rfl, toggleLog_no_ref_check _ "ghost" 3 "u1" 0 .error rfl⟩


/-- C8: every remote-mirroring mutation commits locally first and treats the
remote as best effort: with a failing remote, each operation returns the
same result and produces the same local state (collections, start date,
initialization flag) as the same call on a store with no remote configured,
whatever that call's remote outcome; the operations are total functions, so
no exception reaches the caller, and the local mutation is never rolled
back. -/
theorem remote_failure_local_commit (s : StoreState)
    (name freshId activityId newName : String) (date : Int) (text : String)
    (now : Timestamp)
    (rAdd rToggle : RemoteResult (String × Timestamp))
    (rSave : RemoteResult (String × Timestamp × Timestamp))
    (rDelNote rDelAct rEdit : RemoteResult Unit) :
    ((addActivity s name freshId now .error).1 =
        (addActivity { s with useSupabase := false } name freshId now rAdd).1 ∧
      localParts (addActivity s name freshId now .error).2 =
        localParts (addActivity { s with useSupabase := false } name freshId now rAdd).2) ∧
    ((toggleLog s activityId date freshId now .error).1 =
        (toggleLog { s with useSupabase := false } activityId date freshId now rToggle).1 ∧
      localParts (toggleLog s activityId date freshId now .error).2 =
        localParts (toggleLog { s with useSupabase := false } activityId date freshId now rToggle).2) ∧
    ((DataStore.saveNote s date text freshId now .error).1 =
        (DataStore.saveNote { s with useSupabase := false } date text freshId now rSave).1 ∧
      localParts (DataStore.saveNote s date text freshId now .error).2 =
        localParts (DataStore.saveNote { s with useSupabase := false } date text freshId now rSave).2) ∧
    localParts (deleteNote s date .error) =
      localParts (deleteNote { s with useSupabase := false } date rDelNote) ∧
    localParts (deleteActivity s activityId .error) =
      localParts (deleteActivity { s with useSupabase := false } activityId rDelAct) ∧
    localParts (editActivity s activityId newName .error) =
      localParts (editActivity { s with useSupabase := false } activityId newName rEdit) := by
  have hget : getLogForActivityAndDate { s with useSupabase := false } activityId date =
      getLogForActivityAndDate s activityId date := rfl
  have hnote : getNoteForDate { s with useSupabase := false } date =
      getNoteForDate s date := rfl
  refine ⟨⟨?_, ?_⟩, ⟨?_, ?_⟩, ⟨?_, ?_⟩, ?_, ?_, ?_⟩
  · cases hu : s.useSupabase <;> simp [addActivity, hu]
  · cases hu : s.useSupabase <;> simp [addActivity, localParts, hu]
  · cases hfind : getLogForActivityAndDate s activityId date <;>
      cases hu : s.useSupabase <;> simp [toggleLog, hget, hfind, hu]
  · cases hfind : getLogForActivityAndDate s activityId date <;>
      cases hu : s.useSupabase <;> simp [toggleLog, hget, hfind, localParts, hu]
  · cases hfind : getNoteForDate s date <;>
      cases hu : s.useSupabase <;> simp [DataStore.saveNote, hnote, hfind, hu]
  · cases hfind : getNoteForDate s date <;>
      cases hu : s.useSupabase <;> simp [DataStore.saveNote, hnote, hfind, localParts, hu]
  · rfl
  · rfl
  · have hfind2 : ({ s with useSupabase := false } : StoreState).activities.find?
        (fun a => a.id == activityId) =
        s.activities.find? (fun a => a.id == activityId) := rfl
    cases hfind : s.activities.find? (fun a => a.id == activityId) <;>
      simp [editActivity, hfind2, hfind, localParts]

/-- C6 counterexample: the claim fails when the history start date is not a
midnight, as in the default fallback (`subDays(new Date(), 30)` keeps the
time of day).  Take today = the midnight opening calendar day 1 and
history start = 1 ms after the midnight of calendar day 0 (so on or before
today): `differenceInDays` truncates the partial day, the sequence is the
single entry for calendar day 1, and its last element is NOT the history
start date's calendar day 0 — that day is omitted. -/
theorem allDates_misses_history_start_day :
    (1 : Int) ≤ MS_PER_DAY ∧
    dayOf 1 = 0 ∧
    (allDates MS_PER_DAY 1).map dayOf = [1] ∧
    (allDates MS_PER_DAY 1).getLast?.map dayOf ≠ some (dayOf 1) := by decide

/-- `dayOf` as Euclidean division (the divisor is positive). -/
theorem dayOf_eq_ediv (t : Int) : dayOf t = t / 86400000 := by
  unfold dayOf MS_PER_DAY
  exact Int.fdiv_eq_ediv t (by norm_num)

/-- C6 (amended): for every history start timestamp on or before a
midnight-aligned today, `allDates` has `differenceInDays(today, start) + 1`
entries, its head is today, entry `i` is `today - i` days (consecutive
entries step back exactly one calendar day), and its entries' calendar days
are exactly the days from today back through the calendar day of
`start + 1 day - 1 ms` — that is, the history start date's own calendar day
when the start is a midnight, and the following calendar day otherwise (the
truncation in `differenceInDays` drops the start's partial day). -/
theorem allDates_full_history (today startDate : Int)
    (h : startDate ≤ today) (hd : MS_PER_DAY ∣ today) :
    (allDates today startDate).length =
      ((today - startDate).tdiv MS_PER_DAY).toNat + 1 ∧
    (allDates today startDate).head? = some today ∧
    (∀ i : Nat, ∀ hi : i < (allDates today startDate).length,
      (allDates today startDate).get ⟨i, hi⟩ = today - (i : Int) * MS_PER_DAY) ∧
    (allDates today startDate).getLast?.map dayOf =
      some (dayOf (startDate + MS_PER_DAY - 1)) ∧
    (MS_PER_DAY ∣ startDate →
      (allDates today startDate).getLast?.map dayOf = some (dayOf startDate)) ∧
    (∀ x ∈ allDates today startDate,
      dayOf (startDate + MS_PER_DAY - 1) ≤ dayOf x ∧ dayOf x ≤ dayOf today) ∧
    (∀ e : Int, dayOf (startDate + MS_PER_DAY - 1) ≤ e → e ≤ dayOf today →
      ∃ x ∈ allDates today startDate, dayOf x = e) := by
  obtain ⟨d, hdd⟩ := hd
  subst hdd
  have hDlit : MS_PER_DAY = 86400000 := rfl
  rw [hDlit] at h
  simp only [hDlit]
  have htd : (86400000 * d - startDate).tdiv 86400000 =
      (86400000 * d - startDate) / 86400000 :=
    Int.tdiv_eq_ediv (by omega) (by norm_num)
  have hlen : (allDates (86400000 * d) startDate).length =
      ((86400000 * d - startDate).tdiv 86400000).toNat + 1 := by
    unfold allDates differenceInDays MS_PER_DAY
    rw [List.length_map, List.length_range]
  have hget : ∀ i : Nat, ∀ hi : i < (allDates (86400000 * d) startDate).length,
      (allDates (86400000 * d) startDate).get ⟨i, hi⟩ =
        86400000 * d - (i : Int) * 86400000 := by
    intro i hi
    rw [List.get_eq_getElem]
    unfold allDates MS_PER_DAY
    rw [List.getElem_map, List.getElem_range]
  have hlast : (allDates (86400000 * d) startDate).getLast? =
      some (86400000 * d -
        (((86400000 * d - startDate).tdiv 86400000).toNat : Int) * 86400000) := by
    rw [List.getLast?_eq_getElem?]
    rw [List.getElem?_eq_getElem (by omega)]
    have h1 := hget ((allDates (86400000 * d) startDate).length - 1) (by omega)
    rw [List.get_eq_getElem] at h1
    rw [h1]
    simp only [hlen, Nat.add_sub_cancel]
  have hl4 : (allDates (86400000 * d) startDate).getLast?.map dayOf =
      some (dayOf (startDate + 86400000 - 1)) := by
    rw [hlast]
    show some (dayOf _) = some (dayOf _)
    congr 1
    simp only [dayOf_eq_ediv]
    rw [htd]
    omega
  refine ⟨hlen, ?_, hget, hl4, ?_, ?_, ?_⟩
  · rw [List.head?_eq_getElem?]
    rw [List.getElem?_eq_getElem (by omega)]
    have h0 := hget 0 (by omega)
    rw [List.get_eq_getElem] at h0
    rw [h0]
    simp
  · rintro ⟨s0, hs0⟩
    subst hs0
    rw [hl4]
    congr 1
    simp only [dayOf_eq_ediv]
    omega
  · intro x hx
    unfold allDates differenceInDays MS_PER_DAY at hx
    rw [List.mem_map] at hx
    obtain ⟨i, hi, hxe⟩ := hx
    rw [List.mem_range] at hi
    rw [htd] at hi
    subst hxe
    simp only [dayOf_eq_ediv]
    constructor <;> omega
  · intro e he1 he2
    simp only [dayOf_eq_ediv] at he1 he2
    refine ⟨86400000 * d - ((d - e).toNat : Int) * 86400000, ?_, ?_⟩
    · unfold allDates differenceInDays MS_PER_DAY
      rw [List.mem_map]
      refine ⟨(d - e).toNat, ?_, rfl⟩
      rw [List.mem_range, htd]
      omega
    · simp only [dayOf_eq_ediv]
      omega

/-- C6 witness: the spec's example span with a midnight-aligned history
start, today = the midnight of day 40 and start = the midnight of day 0. -/
theorem allDates_full_history_witness :
    (0 : Int) ≤ MS_PER_DAY * 40 ∧ MS_PER_DAY ∣ MS_PER_DAY * 40 ∧
    ((allDates (MS_PER_DAY * 40) 0).length =
        ((MS_PER_DAY * 40 - 0).tdiv MS_PER_DAY).toNat + 1 ∧
      (allDates (MS_PER_DAY * 40) 0).head? = some (MS_PER_DAY * 40) ∧
      (∀ i : Nat, ∀ hi : i < (allDates (MS_PER_DAY * 40) 0).length,
        (allDates (MS_PER_DAY * 40) 0).get ⟨i, hi⟩ =
          MS_PER_DAY * 40 - (i : Int) * MS_PER_DAY) ∧
      (allDates (MS_PER_DAY * 40) 0).getLast?.map dayOf =
        some (dayOf (0 + MS_PER_DAY - 1)) ∧
      (MS_PER_DAY ∣ (0 : Int) →
        (allDates (MS_PER_DAY * 40) 0).getLast?.map dayOf = some (dayOf 0)) ∧
      (∀ x ∈ allDates (MS_PER_DAY * 40) 0,
        dayOf (0 + MS_PER_DAY - 1) ≤ dayOf x ∧ dayOf x ≤ dayOf (MS_PER_DAY * 40)) ∧
      (∀ e : Int, dayOf (0 + MS_PER_DAY - 1) ≤ e → e ≤ dayOf (MS_PER_DAY * 40) →
        ∃ x ∈ allDates (MS_PER_DAY * 40) 0, dayOf x = e)) :=
  ⟨by decide, ⟨40, rfl⟩,
   allDates_full_history (MS_PER_DAY * 40) 0 (by decide) ⟨40, rfl⟩⟩

/-- C4: backward navigation is clamped at the history start date.  From any
window start at or after the history start date: a backward step from a
position strictly after the start moves back exactly `VISIBLE_DAYS = 7`
days when that does not overshoot and lands exactly on the start date when
it would; the result is never before the start date; the start date is a
fixed point; repeatedly stepping back reaches the start date; and
`canGoBack` holds exactly when the window start is strictly after the
start date (so it turns false exactly at the clamp point). -/
theorem goBack_clamped (startDate viewStartDate : Int)
    (h : startDate ≤ viewStartDate) :
    (startDate < viewStartDate → startDate ≤ viewStartDate - 7 →
      goBack startDate viewStartDate = viewStartDate - 7) ∧
    (startDate < viewStartDate → viewStartDate - 7 < startDate →
      goBack startDate viewStartDate = startDate) ∧
    startDate ≤ goBack startDate viewStartDate ∧
    goBack startDate startDate = startDate ∧
    (∃ k : Nat, (goBack startDate)^[k] viewStartDate = startDate) ∧
    (canGoBack startDate viewStartDate = true ↔ startDate < viewStartDate) := by
  have hstep : ∀ v : Int, goBack startDate v =
      if startDate < v then (if v - 7 < startDate then startDate else v - 7) else v := by
    intro v
    unfold goBack canGoBack VISIBLE_DAYS
    simp only [decide_eq_true_eq, gt_iff_lt, Nat.cast_ofNat]
  have hterm : ∀ n : Nat, ∀ v : Int, startDate ≤ v → (v - startDate).toNat ≤ n →
      ∃ k : Nat, (goBack startDate)^[k] v = startDate := by
    intro n
    induction n with
    | zero =>
        intro v hv hvn
        have hv0 : v = startDate := by omega
        exact ⟨0, by simp [hv0]⟩
    | succ m ih =>
        intro v hv hvn
        by_cases heq : v = startDate
        · exact ⟨0, by simp [heq]⟩
        · have hlt : startDate < v := by omega
          have h1 : startDate ≤ goBack startDate v := by
            rw [hstep]; split_ifs <;> omega
          have h2 : goBack startDate v ≤ v - 1 := by
            rw [hstep]; split_ifs <;> omega
          obtain ⟨k, hk⟩ := ih (goBack startDate v) h1 (by omega)
          exact ⟨k + 1, by rw [Function.iterate_succ_apply]; exact hk⟩
  refine ⟨?_, ?_, ?_, ?_,
    hterm ((viewStartDate - startDate).toNat) viewStartDate h le_rfl, ?_⟩
  · intro h1 h2; rw [hstep]; split_ifs <;> omega
  · intro h1 h2; rw [hstep]; split_ifs <;> omega
  · rw [hstep]; split_ifs <;> omega
  · rw [hstep]; split_ifs <;> omega
  · unfold canGoBack
    simp

/-- C4 witness: the spec's example, history start = day 0, window start =
day 34. -/
theorem goBack_clamped_witness :
    (0 : Int) ≤ 34 ∧
    (((0 : Int) < 34 → (0 : Int) ≤ 34 - 7 → goBack 0 34 = 34 - 7) ∧
      ((0 : Int) < 34 → (34 : Int) - 7 < 0 → goBack 0 34 = 0) ∧
      (0 : Int) ≤ goBack 0 34 ∧
      goBack 0 0 = 0 ∧
      (∃ k : Nat, (goBack 0)^[k] 34 = 0) ∧
      (canGoBack 0 34 = true ↔ (0 : Int) < 34)) :=
  ⟨by decide, goBack_clamped 0 34 (by decide)⟩

/-- C5: forward navigation is clamped at today.  From any window start whose
last visible day `viewStartDate + 6` is at or before today: a forward step
from a position whose last day is strictly before today moves forward
exactly `VISIBLE_DAYS = 7` days when the new window's last day stays at or
before today and lands exactly on `today - 6` (last day = today) when it
would overshoot; the result's last day never exceeds today; `today - 6` is
a fixed point; repeatedly stepping forward reaches `today - 6`; and
`canGoForward` holds exactly when the last visible day is strictly before
today. -/
theorem goForward_clamped (today viewStartDate : Int)
    (h : viewStartDate + 6 ≤ today) :
    (viewStartDate + 6 < today → viewStartDate + 13 ≤ today →
      goForward today viewStartDate = viewStartDate + 7) ∧
    (viewStartDate + 6 < today → today < viewStartDate + 13 →
      goForward today viewStartDate = today - 6) ∧
    goForward today viewStartDate + 6 ≤ today ∧
    goForward today (today - 6) = today - 6 ∧
    (∃ k : Nat, (goForward today)^[k] viewStartDate = today - 6) ∧
    (canGoForward today viewStartDate = true ↔ viewStartDate + 6 < today) := by
  have hstep : ∀ v : Int, goForward today v =
      if v + 6 < today then (if today - 6 < v + 7 then today - 6 else v + 7) else v := by
    intro v
    unfold goForward canGoForward VISIBLE_DAYS
    norm_num
  have hterm : ∀ n : Nat, ∀ v : Int, v + 6 ≤ today → (today - 6 - v).toNat ≤ n →
      ∃ k : Nat, (goForward today)^[k] v = today - 6 := by
    intro n
    induction n with
    | zero =>
        intro v hv hvn
        have hv0 : v = today - 6 := by omega
        exact ⟨0, by simp [hv0]⟩
    | succ m ih =>
        intro v hv hvn
        by_cases heq : v = today - 6
        · exact ⟨0, by simp [heq]⟩
        · have hlt : v + 6 < today := by omega
          have h1 : goForward today v + 6 ≤ today := by
            rw [hstep]; split_ifs <;> omega
          have h2 : v + 1 ≤ goForward today v := by
            rw [hstep]; split_ifs <;> omega
          obtain ⟨k, hk⟩ := ih (goForward today v) h1 (by omega)
          exact ⟨k + 1, by rw [Function.iterate_succ_apply]; exact hk⟩
  refine ⟨?_, ?_, ?_, ?_,
    hterm ((today - 6 - viewStartDate).toNat) viewStartDate h le_rfl, ?_⟩
  · intro h1 h2; rw [hstep]; split_ifs <;> omega
  · intro h1 h2; rw [hstep]; split_ifs <;> omega
  · rw [hstep]; split_ifs <;> omega
  · rw [hstep]; split_ifs <;> omega
  · unfold canGoForward VISIBLE_DAYS
    norm_num

/-- C5 witness: the spec's example, today = day 40, window start = day 0. -/
theorem goForward_clamped_witness :
    (0 : Int) + 6 ≤ 40 ∧
    (((0 : Int) + 6 < 40 → (0 : Int) + 13 ≤ 40 → goForward 40 0 = 0 + 7) ∧
      ((0 : Int) + 6 < 40 → (40 : Int) < 0 + 13 → goForward 40 0 = 40 - 6) ∧
      goForward 40 0 + 6 ≤ 40 ∧
      goForward 40 (40 - 6) = 40 - 6 ∧
      (∃ k : Nat, (goForward 40)^[k] 0 = 40 - 6) ∧
      (canGoForward 40 0 = true ↔ (0 : Int) + 6 < 40)) :=
  ⟨by decide, goForward_clamped 40 0 (by decide)⟩

/-- C3: the hook's `saveNote` with whitespace-only text delegates to
`deleteNote`: the notes collection becomes the old one with every note for
that date removed — so when no note exists for the date the state is
entirely unchanged (no note is created), and when one exists it is
deleted; afterwards no note exists for the date.  The rest of the store is
untouched in both cases. -/
theorem saveNote_empty_collapse (s : StoreState) (d : Int)
    (text freshId : String) (now : Timestamp)
    (remote : RemoteResult (String × Timestamp × Timestamp))
    (h : Tracker.jsTrim text = "") :
    (Tracker.saveNote s d text freshId now remote).notes =
      s.notes.filter (fun n => n.logged_date != d) ∧
    (getNoteForDate s d = none → Tracker.saveNote s d text freshId now remote = s) ∧
    getNoteForDate (Tracker.saveNote s d text freshId now remote) d = none := by
  have hdel : Tracker.saveNote s d text freshId now remote =
      deleteNote s d .error := by
    unfold Tracker.saveNote
    rw [if_neg (by simp [h])]
  refine ⟨?_, ?_, ?_⟩
  · rw [hdel]; rfl
  · intro hn
    rw [hdel]
    unfold deleteNote
    have hkeep : s.notes.filter (fun n => n.logged_date != d) = s.notes := by
      rw [List.filter_eq_self]
      intro n hn2
      have hnp := List.find?_eq_none.mp hn n hn2
      simpa using hnp
    rw [hkeep]
  · rw [hdel]
    unfold deleteNote getNoteForDate
    rw [List.find?_eq_none]
    intro n hn2
    have := (List.mem_filter.mp hn2).2
    simpa using this

/-- C3 witness: a store holding one note for date 4; saving the empty
string for date 4 deletes it. -/
theorem saveNote_empty_collapse_witness :
    Tracker.jsTrim "" = "" ∧
    ((Tracker.saveNote ⟨[], [], [⟨"n1", 4, "hello", 0, 0⟩], 0, true, false⟩
          4 "" "u1" 9 .error).notes =
        ([⟨"n1", 4, "hello", 0, 0⟩] : List Note).filter (fun n => n.logged_date != 4) ∧
      (getNoteForDate ⟨[], [], [⟨"n1", 4, "hello", 0, 0⟩], 0, true, false⟩ 4 = none →
        Tracker.saveNote ⟨[], [], [⟨"n1", 4, "hello", 0, 0⟩], 0, true, false⟩
            4 "" "u1" 9 .error =
          ⟨[], [], [⟨"n1", 4, "hello", 0, 0⟩], 0, true, false⟩) ∧
      getNoteForDate (Tracker.saveNote ⟨[], [], [⟨"n1", 4, "hello", 0, 0⟩], 0, true, false⟩
          4 "" "u1" 9 .error) 4 = none) :=
  ⟨by decide, saveNote_empty_collapse ⟨[], [], [⟨"n1", 4, "hello", 0, 0⟩], 0, true, false⟩
    4 "" "u1" 9 .error (by decide)⟩

/-- Number of logs the store holds for one (activity, date) pair. -/
def countPair (s : StoreState) (activityId : String) (date : Int) : Nat :=
  (s.logs.filter
    (fun l => l.activity_id == activityId && l.logged_date == date)).length

/-- Iterate `toggleLog` on one (activity, date) pair; each call brings its
own fresh uuid, clock value and remote outcome. -/
def toggleLogN (s : StoreState) (activityId : String) (date : Int) :
    List (String × Timestamp × RemoteResult (String × Timestamp)) → StoreState
  | [] => s
  | c :: cs =>
      toggleLogN (DataStore.toggleLog s activityId date c.1 c.2.1 c.2.2).2
        activityId date cs

/-- Toggling a pair with no log for it returns the created log and leaves
exactly one log for the pair. -/
theorem toggleLog_flip_on (t : StoreState) (a : String) (d : Int)
    (freshId : String) (now : Timestamp) (r : RemoteResult (String × Timestamp))
    (h0 : countPair t a d = 0) :
    (DataStore.toggleLog t a d freshId now r).1.isSome = true ∧
    countPair (DataStore.toggleLog t a d freshId now r).2 a d = 1 := by
  have hnil : t.logs.filter (fun l => l.activity_id == a && l.logged_date == d) = [] := by
    unfold countPair at h0
    rwa [List.length_eq_zero] at h0
  have hfind : getLogForActivityAndDate t a d = none := by
    unfold getLogForActivityAndDate
    rw [List.find?_eq_none]
    rw [List.filter_eq_nil_iff] at hnil
    exact hnil
  constructor
  · simp [DataStore.toggleLog, hfind]
  · unfold countPair
    simp only [DataStore.toggleLog, hfind]
    cases hu : t.useSupabase <;> rcases r with _ | ⟨rid, rts⟩ <;>
      simp [List.filter_append, hnil, hu]

/-- Toggling a pair with exactly one log for it returns `none` and leaves
no log for the pair. -/
theorem toggleLog_flip_off (t : StoreState) (a : String) (d : Int)
    (freshId : String) (now : Timestamp) (r : RemoteResult (String × Timestamp))
    (h1 : countPair t a d = 1) :
    (DataStore.toggleLog t a d freshId now r).1 = none ∧
    countPair (DataStore.toggleLog t a d freshId now r).2 a d = 0 := by
  unfold countPair at h1
  rcases hfind : getLogForActivityAndDate t a d with _ | e
  · exfalso
    unfold getLogForActivityAndDate at hfind
    rw [List.find?_eq_none] at hfind
    rw [List.filter_eq_nil_iff.mpr hfind] at h1
    simp at h1
  · have hfind2 : t.logs.find?
        (fun l => l.activity_id == a && l.logged_date == d) = some e := hfind
    have hfil : t.logs.filter (fun l => l.activity_id == a && l.logged_date == d) = [e] := by
      obtain ⟨x, hx⟩ := List.length_eq_one.mp h1
      have hPe := List.find?_some hfind2
      have hmem : e ∈ t.logs.filter (fun l => l.activity_id == a && l.logged_date == d) :=
        List.mem_filter.mpr ⟨List.mem_of_find?_eq_some hfind2, hPe⟩
      rw [hx] at hmem
      simp at hmem
      rw [hx, hmem]
    constructor
    · simp [DataStore.toggleLog, hfind]
    · unfold countPair
      simp only [DataStore.toggleLog, hfind]
      rw [List.filter_comm, hfil]
      simp

/-- Iterated toggling flips the pair's log count mod 2. -/
theorem toggleLogN_parity (a : String) (d : Int) :
    ∀ calls : List (String × Timestamp × RemoteResult (String × Timestamp)),
    ∀ s : StoreState, countPair s a d ≤ 1 →
      countPair (toggleLogN s a d calls) a d =
        (countPair s a d + calls.length) % 2 := by
  intro calls
  induction calls with
  | nil =>
      intro s hs
      show countPair s a d = (countPair s a d + 0) % 2
      omega
  | cons c cs ih =>
      intro s hs
      show countPair
        (toggleLogN (DataStore.toggleLog s a d c.1 c.2.1 c.2.2).2 a d cs) a d = _
      rcases Nat.le_one_iff_eq_zero_or_eq_one.mp hs with h0 | h1
      · have hstep := toggleLog_flip_on s a d c.1 c.2.1 c.2.2 h0
        have hle2 : countPair (DataStore.toggleLog s a d c.1 c.2.1 c.2.2).2 a d ≤ 1 := by
          rw [hstep.2]
        rw [ih _ hle2, hstep.2, h0]
        simp only [List.length_cons]
        omega
      · have hstep := toggleLog_flip_off s a d c.1 c.2.1 c.2.2 h1
        have hle2 : countPair (DataStore.toggleLog s a d c.1 c.2.1 c.2.2).2 a d ≤ 1 := by
          rw [hstep.2]; omega
        rw [ih _ hle2, hstep.2, h1]
        simp only [List.length_cons]
        omega

/-- C1: the toggle invariant.  Starting from a state with no log for the
pair, after `n` `toggleLog` calls on the pair exactly `n % 2` logs exist
for it (one after an odd number, zero after an even number), whatever
uuids, clock values and remote outcomes the calls see.  Each call flips
presence: with no log present it creates and returns a log, with one
present it deletes it and returns `null`; and `isLogged` reflects
presence (holds exactly when the pair's log count is non-zero) at every
state. -/
theorem toggleLog_toggle_invariant (s : StoreState) (a : String) (d : Int)
    (calls : List (String × Timestamp × RemoteResult (String × Timestamp)))
    (h0 : countPair s a d = 0) :
    countPair (toggleLogN s a d calls) a d = calls.length % 2 ∧
    (∀ t : StoreState, ∀ freshId : String, ∀ now : Timestamp,
      ∀ r : RemoteResult (String × Timestamp), countPair t a d = 0 →
      (DataStore.toggleLog t a d freshId now r).1.isSome = true ∧
      countPair (DataStore.toggleLog t a d freshId now r).2 a d = 1) ∧
    (∀ t : StoreState, ∀ freshId : String, ∀ now : Timestamp,
      ∀ r : RemoteResult (String × Timestamp), countPair t a d = 1 →
      (DataStore.toggleLog t a d freshId now r).1 = none ∧
      countPair (DataStore.toggleLog t a d freshId now r).2 a d = 0) ∧
    (∀ t : StoreState, Tracker.isLogged t a d = true ↔ countPair t a d ≠ 0) := by
  refine ⟨?_, fun t fi n r h => toggleLog_flip_on t a d fi n r h,
    fun t fi n r h => toggleLog_flip_off t a d fi n r h, ?_⟩
  · have hp := toggleLogN_parity a d calls s (by omega)
    rw [h0] at hp
    simpa using hp
  · intro t
    unfold Tracker.isLogged countPair
    rw [List.any_eq_true]
    constructor
    · rintro ⟨x, hx, hPx⟩ hcon
      rw [List.length_eq_zero, List.filter_eq_nil_iff] at hcon
      exact hcon x hx hPx
    · intro hne
      by_contra hnone
      push_neg at hnone
      apply hne
      rw [List.length_eq_zero, List.filter_eq_nil_iff]
      intro x hx
      exact hnone x hx

/-- C1 witness: three toggles of one pair starting from an empty store
(with a mid-sequence remote success) leave exactly 3 % 2 = 1 log. -/
theorem toggleLog_toggle_invariant_witness :
    countPair ⟨[], [], [], 0, true, false⟩ "a1" 5 = 0 ∧
    countPair (toggleLogN ⟨[], [], [], 0, true, false⟩ "a1" 5
        [("u1", 0, .error), ("u2", 1, .ok ("r2", 8)), ("u3", 2, .error)]) "a1" 5 =
      ([("u1", 0, .error), ("u2", 1, .ok ("r2", 8)), ("u3", 2, .error)] :
        List (String × Timestamp × RemoteResult (String × Timestamp))).length % 2 :=
  ⟨rfl, (toggleLog_toggle_invariant ⟨[], [], [], 0, true, false⟩ "a1" 5
    [("u1", 0, .error), ("u2", 1, .ok ("r2", 8)), ("u3", 2, .error)] rfl).1⟩

/-- C2 counterexample: starting from an empty store, add "A" (order 0) and
"B" (order 1), delete "B", then add "C": "C" receives order_index 1 — the
very index previously held by the deleted "B".  So a freed index IS reused
when the deleted activity held the maximum order_index. -/
theorem addActivity_reuses_freed_index :
    (addActivity (addActivity ⟨[], [], [], 0, false, false⟩
        "A" "idA" 0 .error).2 "B" "idB" 0 .error).1.order_index = 1 ∧
    (deleteActivity (addActivity (addActivity ⟨[], [], [], 0, false, false⟩
          "A" "idA" 0 .error).2 "B" "idB" 0 .error).2 "idB"
        .error).activities.find? (fun a => a.id == "idB") = none ∧
    (addActivity (deleteActivity (addActivity (addActivity
          ⟨[], [], [], 0, false, false⟩ "A" "idA" 0 .error).2
          "B" "idB" 0 .error).2 "idB" .error)
        "C" "idC" 0 .error).1.order_index = 1 := by
  refine ⟨?_, ?_, ?_⟩ <;> rfl

/-- C2 (amended): `addActivity` assigns the new activity an order_index of
`max(existing order_indices, -1) + 1`, which is strictly greater than every
order_index present at the time of the call and equal to 0 when no
activities exist; the activity is appended to the collection.  (The
original claim's second half — that a deleted activity's index is never
reused — is refuted by `addActivity_reuses_freed_index`.) -/
theorem addActivity_order_index_monotone (s : StoreState)
    (name freshId : String) (now : Timestamp)
    (remote : RemoteResult (String × Timestamp)) :
    (∀ a ∈ s.activities,
      a.order_index < (addActivity s name freshId now remote).1.order_index) ∧
    (s.activities = [] →
      (addActivity s name freshId now remote).1.order_index = 0) ∧
    (addActivity s name freshId now remote).2.activities =
      s.activities ++ [(addActivity s name freshId now remote).1] := by
  have hord : (addActivity s name freshId now remote).1.order_index =
      s.activities.foldr (fun a m => max a.order_index m) (-1) + 1 := by
    unfold addActivity
    cases hu : s.useSupabase <;> rcases remote with _ | ⟨rid, rts⟩ <;> simp
  have hfold : ∀ l : List Activity, ∀ a ∈ l,
      a.order_index ≤ l.foldr (fun x m => max x.order_index m) (-1) := by
    intro l
    induction l with
    | nil => intro a ha; cases ha
    | cons x xs ih =>
        intro a ha
        rcases List.mem_cons.mp ha with h1 | h2
        · subst h1
          exact le_max_left _ _
        · exact le_trans (ih a h2) (le_max_right _ _)
  refine ⟨?_, ?_, ?_⟩
  · intro a ha
    rw [hord]
    have := hfold s.activities a ha
    omega
  · intro hemp
    rw [hord, hemp]
    rfl
  · unfold addActivity
    cases hu : s.useSupabase <;> rcases remote with _ | ⟨rid, rts⟩ <;> simp

/-- C2 witness: with one existing activity of order_index 0, an added
activity receives order_index 1, strictly greater. -/
theorem addActivity_order_index_monotone_witness :
    ((⟨"idA", "A", 0, 0⟩ : Activity) ∈
      ([⟨"idA", "A", 0, 0⟩] : List Activity)) ∧
    (⟨"idA", "A", 0, 0⟩ : Activity).order_index <
      (addActivity ⟨[⟨"idA", "A", 0, 0⟩], [], [], 0, false, false⟩
          "B" "idB" 0 .error).1.order_index :=
  ⟨by decide, (addActivity_order_index_monotone
      ⟨[⟨"idA", "A", 0, 0⟩], [], [], 0, false, false⟩ "B" "idB" 0 .error).1
      ⟨"idA", "A", 0, 0⟩ (by decide)⟩

end Claims
